import Mathlib

/-!
Shallow embedding of `rust/lance-encoding/src/encodings/physical/value.rs`:
the physical value-page codec and I/O-scheduling layer (compression scheme
parsing, value page scheduler, value page decoder, value encoder).

Machine integers (`u32`, `u64`, `usize`) are modelled as `Nat`: all arithmetic
in the embedded paths is addition/multiplication of byte offsets where Rust
would panic on overflow rather than wrap, and the claims under study are
stated over the mathematical values.  Byte buffers (`Bytes`, `Vec<u8>`)
are modelled as `List Nat`; `Vec<Bytes>` as `List (List Nat)`.  Fallible
Rust functions returning `Result<T>` are modelled as `Except String T`,
with the error message carried as a string.

External collaborators (the bit-width analyzer `num_compressed_bits`, the
bit-packing buffer encoder, the flat/bitmap/compressed buffer encoders, and
the general block decompressor) live outside this file's source; they are
taken as abstract inputs (universally quantified parameters or fields),
never defined, so every theorem holds for all of their possible behaviours.
-/

/-- `CompressionScheme` enum from the source: `{ None, Zstd }`. -/
inductive CompressionScheme where
  | None
  | Zstd
deriving DecidableEq, Repr

/-- `impl fmt::Display for CompressionScheme`: `Zstd ↦ "zstd"`, `None ↦ "none"`. -/
def CompressionScheme.toString : CompressionScheme → String
  | CompressionScheme.Zstd => "zstd"
  | CompressionScheme.None => "none"

/-- `parse_compression_scheme`: Rust matches the string against the literals
`"none"` and `"zstd"` and otherwise returns
`Error::invalid_input("Unknown compression scheme: {scheme}")`.  A `match`
on string literals is an equality chain, embedded here as nested `if`s. -/
def parse_compression_scheme (scheme : String) : Except String CompressionScheme :=
  if scheme = "none" then Except.ok CompressionScheme.None
  else if scheme = "zstd" then Except.ok CompressionScheme.Zstd
  else Except.error ("Unknown compression scheme: " ++ scheme)

/-- `ValuePageScheduler`: fixed page geometry, immutable after construction. -/
structure ValuePageScheduler where
  bytes_per_value : Nat
  buffer_offset : Nat
  buffer_size : Nat
  compression_scheme : CompressionScheme
deriving DecidableEq, Repr

/-- The `byte_ranges` computed by `ValuePageScheduler::schedule_ranges`:
for `compression_scheme == None`, one byte interval per row range via
`buffer_offset + bound * bytes_per_value`; otherwise the single interval
covering the whole page.  A row range `start..end` is the pair
`(start, end)`; the `min`/`max` tracking in the source feeds only a trace
log and is omitted. -/
def ValuePageScheduler.byte_ranges (s : ValuePageScheduler)
    (ranges : List (Nat × Nat)) : List (Nat × Nat) :=
  if s.compression_scheme = CompressionScheme.None then
    ranges.map (fun range =>
      (s.buffer_offset + range.1 * s.bytes_per_value,
       s.buffer_offset + range.2 * s.bytes_per_value))
  else
    [(s.buffer_offset, s.buffer_offset + s.buffer_size)]

/-- The `range_offsets` computed by `ValuePageScheduler::schedule_ranges`:
for a compressed page, the logical byte offsets of each requested row range
into the decompressed value stream; the empty list when
`compression_scheme == None`. -/
def ValuePageScheduler.range_offsets (s : ValuePageScheduler)
    (ranges : List (Nat × Nat)) : List (Nat × Nat) :=
  if s.compression_scheme ≠ CompressionScheme.None then
    ranges.map (fun range =>
      (range.1 * s.bytes_per_value, range.2 * s.bytes_per_value))
  else []

/-- `ValuePageDecoder`: fetched bytes plus the lazily populated
decompression cache (`uncompressed_data`, a mutex-guarded `Option` in the
source, modelled as an explicit `Option` field threaded through calls). -/
structure ValuePageDecoder where
  bytes_per_value : Nat
  data : List (List Nat)
  uncompressed_data : Option (List (List Nat))
  uncompressed_range_offsets : List (Nat × Nat)
deriving DecidableEq, Repr

/-- The decoder built at the end of `schedule_ranges` once the submitted
I/O resolves with `fetched` byte buffers: the cache starts empty and the
logical offsets are the precomputed `range_offsets`. -/
def ValuePageScheduler.schedule_decoder (s : ValuePageScheduler)
    (ranges : List (Nat × Nat)) (fetched : List (List Nat)) : ValuePageDecoder :=
  { bytes_per_value := s.bytes_per_value
    data := fetched
    uncompressed_data := Option.none
    uncompressed_range_offsets := s.range_offsets ranges }

/-- `ValuePageDecoder::is_compressed`: the page counts as compressed exactly
when the logical-offset list is non-empty. -/
def ValuePageDecoder.is_compressed (d : ValuePageDecoder) : Bool :=
  !d.uncompressed_range_offsets.isEmpty

/-- The slicing loop at the end of `ValuePageDecoder::decompress`:
`uncompressed_bytes[start..end]` for each stored logical offset range.
(Rust panics when a bound exceeds the buffer; the claims only exercise
in-bounds offsets, where `drop`/`take` agree with slicing.) -/
def slice_ranges (offsets : List (Nat × Nat)) (uncompressed_bytes : List Nat) :
    List (List Nat) :=
  offsets.map (fun range => (uncompressed_bytes.drop range.1).take (range.2 - range.1))

/-- `ValuePageDecoder::decompress`: run the external block decompressor
`DEC` on `data[0]` (compressed pages always carry exactly one fetched
buffer; `headD []` models the index) and slice the output by the logical
offsets.  `DEC` stands for `GeneralBufferCompressor::get_compressor("")
.decompress`. -/
def ValuePageDecoder.decompress (d : ValuePageDecoder)
    (DEC : List Nat → Except String (List Nat)) : Except String (List (List Nat)) :=
  match DEC (d.data.headD []) with
  | Except.error e => Except.error e
  | Except.ok uncompressed_bytes =>
      Except.ok (slice_ranges d.uncompressed_range_offsets uncompressed_bytes)

/-- `ValuePageDecoder::get_uncompressed_bytes`: under the cache lock, if the
cache is empty populate it with `decompress()?`; return the cached value.
The returned decoder is the (possibly updated) state of `self`; on error the
`?` operator propagates before the cache is written, leaving it unchanged. -/
def ValuePageDecoder.get_uncompressed_bytes (d : ValuePageDecoder)
    (DEC : List Nat → Except String (List Nat)) :
    Except String (List (List Nat) × ValuePageDecoder) :=
  match d.uncompressed_data with
  | Option.some bufs => Except.ok (bufs, d)
  | Option.none =>
      match d.decompress DEC with
      | Except.error e => Except.error e
      | Except.ok bufs =>
          Except.ok (bufs, { d with uncompressed_data := Option.some bufs })

/-- `ValuePageDecoder::decode_buffer`: one step of the scatter/gather copy.
State is `(bytes_to_skip, bytes_to_take, dest)`; `buf.slice(start..end)`
is `drop`/`take`. -/
def decode_buffer (buf : List Nat) (bytes_to_skip bytes_to_take : Nat)
    (dest : List Nat) : Nat × Nat × List Nat :=
  let buf_len := buf.length
  if buf_len < bytes_to_skip then
    (bytes_to_skip - buf_len, bytes_to_take, dest)
  else
    let bytes_to_take_here := min (buf_len - bytes_to_skip) bytes_to_take
    (0, bytes_to_take - bytes_to_take_here,
     dest ++ ((buf.drop bytes_to_skip).take bytes_to_take_here))

/-- The `for buf in …` loop of `decode_into`: fold `decode_buffer` over the
chunk list, threading the two counters and the destination. -/
def decode_buffers : List (List Nat) → Nat → Nat → List Nat → List Nat
  | [], _, _, dest => dest
  | buf :: rest, bytes_to_skip, bytes_to_take, dest =>
      let st := decode_buffer buf bytes_to_skip bytes_to_take dest
      decode_buffers rest st.1 st.2.1 st.2.2

/-- `ValuePageDecoder::decode_into`: scale the row window by
`bytes_per_value`; for a compressed page materialize the decompression cache
and copy from it, otherwise copy straight from the fetched bytes.  `dest` is
the destination buffer's prior content (the copy appends).  Returns the
result together with the decoder state after the call. -/
def ValuePageDecoder.decode_into (d : ValuePageDecoder)
    (DEC : List Nat → Except String (List Nat))
    (rows_to_skip num_rows : Nat) (dest : List Nat) :
    Except String (List Nat) × ValuePageDecoder :=
  let bytes_to_skip := rows_to_skip * d.bytes_per_value
  let bytes_to_take := num_rows * d.bytes_per_value
  if d.is_compressed then
    match d.get_uncompressed_bytes DEC with
    | Except.error e => (Except.error e, d)
    | Except.ok (bufs, d2) =>
        (Except.ok (decode_buffers bufs bytes_to_skip bytes_to_take dest), d2)
  else
    (Except.ok (decode_buffers d.data bytes_to_skip bytes_to_take dest), d)

/-- `ValuePageDecoder::update_capacity`: buffer 0 gets
`bytes_per_value * num_rows` and the needs-allocation flag. -/
def ValuePageDecoder.update_capacity (d : ValuePageDecoder) (num_rows : Nat) :
    Nat × Bool :=
  (d.bytes_per_value * num_rows, true)

/-- The slice of Arrow's `DataType` the encoder distinguishes: `Boolean`,
a fixed-stride type of a given byte width, or an unsupported type (named,
for the construction error message). -/
inductive DataType where
  | Boolean
  | FixedStride (width : Nat)
  | Unsupported (name : String)
deriving DecidableEq, Repr, Inhabited

/-- `DataTypeExt::byte_width`.  Only ever consulted on fixed-stride types in
the embedded paths (the `Boolean` arm of `encode` matches before calling
it, and construction rejects unsupported types). -/
def DataType.byte_width : DataType → Nat
  | DataType.Boolean => 1
  | DataType.FixedStride width => width
  | DataType.Unsupported _ => 0

/-- `DataTypeExt::is_fixed_stride`.  (Arrow's `Boolean` is fixed-stride,
but `try_new` tests for `Boolean` first, so that arm never reaches this.) -/
def DataType.is_fixed_stride : DataType → Bool
  | DataType.Boolean => true
  | DataType.FixedStride _ => true
  | DataType.Unsupported _ => false

/-- Display name of the data type, used in `try_new`'s error message. -/
def DataType.display : DataType → String
  | DataType.Boolean => "Boolean"
  | DataType.FixedStride width => "FixedStride(" ++ Nat.repr width ++ ")"
  | DataType.Unsupported name => name

/-- An input array as the encoder observes it: its data type and the result
of the external bit-width analyzer `num_compressed_bits` on it (`none` when
the array is unpackable). -/
structure ArrayM where
  data_type : DataType
  num_compressed_bits : Option Nat
deriving DecidableEq, Repr, Inhabited

/-- Which buffer encoder `try_new` stores as `flat_buffer_encoder`:
`BitmapBufferEncoder`, `CompressedBufferEncoder`, or `FlatBufferEncoder`.
Only the `Compressed` variant block-compresses the bytes it is handed. -/
inductive BufferEncoderKind where
  | Bitmap
  | Compressed
  | Flat
deriving DecidableEq, Repr

/-- `ValueEncoder`.  `has_bitpack_encoder` models
`bitpack_buffer_encoder.is_some()`; the bit-packer itself is external and
its output is passed to `encode` as an abstract argument. -/
structure ValueEncoder where
  compression_scheme : CompressionScheme
  flat_buffer_encoder : BufferEncoderKind
  has_bitpack_encoder : Bool
deriving DecidableEq, Repr

/-- `ValueEncoder::try_new`: booleans get the bitmap encoder and no
bit-packer; other fixed-stride types get the flat (or, under compression,
the block-compressing) encoder plus a bit-packer; anything else is an
invalid-input error. -/
def ValueEncoder.try_new (data_type : DataType)
    (compression_scheme : CompressionScheme) : Except String ValueEncoder :=
  if data_type = DataType.Boolean then
    Except.ok
      { compression_scheme := compression_scheme
        flat_buffer_encoder := BufferEncoderKind.Bitmap
        has_bitpack_encoder := false }
  else if data_type.is_fixed_stride then
    Except.ok
      { compression_scheme := compression_scheme
        flat_buffer_encoder :=
          if compression_scheme ≠ CompressionScheme.None then
            BufferEncoderKind.Compressed
          else
            BufferEncoderKind.Flat
        has_bitpack_encoder := true }
  else
    Except.error ("Cannot use ValueEncoder to encode " ++ data_type.display)

/-- `EncodedBuffer { parts: Vec<Buffer> }`. -/
structure EncodedBuffer where
  parts : List (List Nat)
deriving DecidableEq, Repr

/-- `EncodedArrayBuffer { parts, index }`. -/
structure EncodedArrayBuffer where
  parts : List (List Nat)
  index : Nat
deriving DecidableEq, Repr

/-- The `pb::array_encoding::ArrayEncoding` metadata variants this file
produces.  `Flat` carries `bits_per_value`, the page-buffer index, and the
optional compression record (the scheme's display string); `Bitpacked`
carries the compressed and uncompressed widths and the buffer index. -/
inductive ArrayEncoding where
  | Flat (bits_per_value : Nat) (buffer_index : Nat) (compression : Option String)
  | Bitpacked (compressed_bits_per_value uncompressed_bits_per_value : Nat)
      (buffer_index : Nat)
deriving DecidableEq, Repr

/-- `EncodedArray { buffers, encoding }` (the `pb::ArrayEncoding` wrapper
around the variant is flattened away). -/
structure EncodedArray where
  buffers : List EncodedArrayBuffer
  encoding : ArrayEncoding
deriving DecidableEq, Repr

/-- The bit-width loop of `try_bitpack_encode`: starting from
`num_bits = 0`, fold `max` over each array's analyzer result, aborting with
`none` as soon as one array is unpackable. -/
def batch_num_bits : List ArrayM → Nat → Option Nat
  | [], num_bits => Option.some num_bits
  | arr :: rest, num_bits =>
      match arr.num_compressed_bits with
      | Option.some arr_max => batch_num_bits rest (max num_bits arr_max)
      | Option.none => Option.none

/-- `ValueEncoder::try_bitpack_encode`.  `bitpack_result` is the outcome of
the external `BitpackingBufferEncoder::encode(arrays)`; `arrays[0]` is
`headD default` (the claims only invoke this on non-empty batches, where
Rust's indexing is defined). -/
def ValueEncoder.try_bitpack_encode (enc : ValueEncoder) (arrays : List ArrayM)
    (bitpack_result : Except String EncodedBuffer) (buffer_index : Nat) :
    Except String (Option (ArrayEncoding × EncodedBuffer)) :=
  if enc.has_bitpack_encoder = false then
    Except.ok Option.none
  else
    match batch_num_bits arrays 0 with
    | Option.none => Except.ok Option.none
    | Option.some num_bits =>
        let data_type := (arrays.headD default).data_type
        let native_num_bits := 8 * data_type.byte_width
        if num_bits ≥ native_num_bits then
          Except.ok Option.none
        else
          match bitpack_result with
          | Except.error e => Except.error e
          | Except.ok encoded_buffer =>
              Except.ok (Option.some
                (ArrayEncoding.Bitpacked num_bits native_num_bits buffer_index,
                 encoded_buffer))

/-- `ArrayEncoder::encode for ValueEncoder`.  The caller's `buffer_index`
counter is read into `index` and incremented before any encoding work; the
new counter value is returned as the second component.  `bitpack_result`
and `flat_result` are the outcomes of the external bit-packing and
flat-buffer encoders on `arrays`. -/
def ValueEncoder.encode (enc : ValueEncoder) (arrays : List ArrayM)
    (bitpack_result flat_result : Except String EncodedBuffer)
    (buffer_index : Nat) : Except String EncodedArray × Nat :=
  let index := buffer_index
  let buffer_index := buffer_index + 1
  match enc.try_bitpack_encode arrays bitpack_result index with
  | Except.error e => (Except.error e, buffer_index)
  | Except.ok (Option.some (array_encoding, encoded_buffer)) =>
      (Except.ok
        { buffers := [{ parts := encoded_buffer.parts, index := index }]
          encoding := array_encoding },
       buffer_index)
  | Except.ok Option.none =>
      let data_type := (arrays.headD default).data_type
      let bits_per_value :=
        match data_type with
        | DataType.Boolean => 1
        | _ => 8 * data_type.byte_width
      match flat_result with
      | Except.error e => (Except.error e, buffer_index)
      | Except.ok encoded_buffer =>
          let array_encoding := ArrayEncoding.Flat bits_per_value index
            (if enc.compression_scheme ≠ CompressionScheme.None then
              Option.some enc.compression_scheme.toString
            else
              Option.none)
          (Except.ok
            { buffers := [{ parts := encoded_buffer.parts, index := index }]
              encoding := array_encoding },
           buffer_index)

/-! ## Supporting lemmas -/

/-- The scatter/gather fold over a chunk list writes exactly the window
`take bytes_to_take` of `drop bytes_to_skip` of the concatenation of the
chunks, appended to the destination. -/
theorem decode_buffers_eq_window (bufs : List (List Nat)) :
    ∀ bytes_to_skip bytes_to_take dest,
      decode_buffers bufs bytes_to_skip bytes_to_take dest =
        dest ++ (bufs.flatten.drop bytes_to_skip).take bytes_to_take := by
  induction bufs with
  | nil => intro s t dest; simp [decode_buffers]
  | cons buf rest ih =>
    intro s t dest
    simp only [decode_buffers, decode_buffer]
    by_cases h : buf.length < s
    · simp only [if_pos h]
      rw [ih, List.flatten_cons, List.drop_append_eq_append_drop,
        List.drop_eq_nil_of_le (Nat.le_of_lt h), List.nil_append]
    · simp only [if_neg h]
      rw [ih, List.flatten_cons, List.drop_append_eq_append_drop,
        Nat.sub_eq_zero_of_le (Nat.le_of_not_lt h), List.drop_zero,
        List.take_append_eq_append_take, List.append_assoc]
      have hlen : (buf.drop s).length = buf.length - s := List.length_drop s buf
      congr 1
      congr 1
      · rw [List.take_eq_take, hlen]
        omega
      · congr 1
        rw [hlen]
        omega

/-- On a page whose logical-offset list is empty, `decode_into` copies
straight from the fetched bytes and leaves the decoder untouched. -/
theorem decode_into_uncompressed (d : ValuePageDecoder)
    (DEC : List Nat → Except String (List Nat)) (rows_to_skip num_rows : Nat)
    (dest : List Nat) (h : d.is_compressed = false) :
    d.decode_into DEC rows_to_skip num_rows dest =
      (Except.ok (decode_buffers d.data (rows_to_skip * d.bytes_per_value)
          (num_rows * d.bytes_per_value) dest), d) := by
  simp [ValuePageDecoder.decode_into, h]

/-- `batch_num_bits` succeeds exactly when every array's analyzer result is
present, whatever the accumulator. -/
theorem batch_num_bits_isSome (arrays : List ArrayM) :
    ∀ acc : Nat, (batch_num_bits arrays acc).isSome ↔
      ∀ a ∈ arrays, a.num_compressed_bits.isSome := by
  induction arrays with
  | nil => intro acc; simp [batch_num_bits]
  | cons arr rest ih =>
    intro acc
    cases harr : arr.num_compressed_bits with
    | none => simp [batch_num_bits, harr]
    | some m => simp [batch_num_bits, harr, ih]

/-- When `batch_num_bits` succeeds, its value is the fold of `max` over all
analyzer results starting from the accumulator. -/
theorem batch_num_bits_eq_foldl (arrays : List ArrayM) :
    ∀ acc nb : Nat, batch_num_bits arrays acc = Option.some nb →
      nb = (arrays.map (fun a => a.num_compressed_bits.getD 0)).foldl max acc := by
  induction arrays with
  | nil =>
    intro acc nb h
    simp [batch_num_bits] at h
    simp [h]
  | cons arr rest ih =>
    intro acc nb h
    cases harr : arr.num_compressed_bits with
    | none => simp [batch_num_bits, harr] at h
    | some m =>
      rw [batch_num_bits, harr] at h
      simpa [harr] using ih (max acc m) nb h

/-! ## Claims -/

/-- Claim C8: `parse_compression_scheme` accepts exactly the case-sensitive
strings `"none"` and `"zstd"`, mapping them to the `None` and `Zstd`
schemes; every other input fails with an invalid-input error whose message
names the unrecognized value; and the display form is the exact inverse, so
parsing the formatted name of any scheme yields that scheme back. -/
theorem claim_C8_parse_format_roundtrip :
    parse_compression_scheme "none" = Except.ok CompressionScheme.None ∧
    parse_compression_scheme "zstd" = Except.ok CompressionScheme.Zstd ∧
    (∀ s : String, s ≠ "none" → s ≠ "zstd" →
      parse_compression_scheme s =
        Except.error ("Unknown compression scheme: " ++ s)) ∧
    (∀ c : CompressionScheme,
      parse_compression_scheme (CompressionScheme.toString c) = Except.ok c) := by
  refine ⟨rfl, rfl, ?_, ?_⟩
  · intro s h1 h2
    simp [parse_compression_scheme, h1, h2]
  · intro c
    cases c <;> rfl

/-- Witness for C8 at the spec's scenario input `"lz4"` and at both schemes. -/
theorem claim_C8_witness :
    parse_compression_scheme "lz4" =
      Except.error ("Unknown compression scheme: " ++ "lz4") ∧
    parse_compression_scheme (CompressionScheme.toString CompressionScheme.Zstd) =
      Except.ok CompressionScheme.Zstd ∧
    parse_compression_scheme (CompressionScheme.toString CompressionScheme.None) =
      Except.ok CompressionScheme.None :=
  ⟨claim_C8_parse_format_roundtrip.2.2.1 "lz4" (by decide) (by decide),
   claim_C8_parse_format_roundtrip.2.2.2 CompressionScheme.Zstd,
   claim_C8_parse_format_roundtrip.2.2.2 CompressionScheme.None⟩

/-- Claim C3: for every scheduler whose compression scheme is not `None`
and every list of requested row ranges, `schedule_ranges` submits exactly
the one byte interval `[buffer_offset, buffer_offset + buffer_size)`,
regardless of how many row ranges were requested. -/
theorem claim_C3_compressed_single_interval (s : ValuePageScheduler)
    (ranges : List (Nat × Nat))
    (h : s.compression_scheme ≠ CompressionScheme.None) :
    s.byte_ranges ranges = [(s.buffer_offset, s.buffer_offset + s.buffer_size)] := by
  simp [ValuePageScheduler.byte_ranges, h]

/-- Witness for C3: a zstd page of geometry `(4, 100, 40)` with two row
ranges still yields the single whole-page interval. -/
theorem claim_C3_witness :
    ValuePageScheduler.byte_ranges ⟨4, 100, 40, CompressionScheme.Zstd⟩
      [(2, 5), (7, 9)] = [(100, 140)] :=
  claim_C3_compressed_single_interval ⟨4, 100, 40, CompressionScheme.Zstd⟩
    [(2, 5), (7, 9)] (by decide)

/-- Claim C4: for every scheduler whose compression scheme is `None` and
every list of N requested row ranges, `schedule_ranges` submits exactly N
byte intervals, in input order, the i-th being
`[buffer_offset + startᵢ * bytes_per_value, buffer_offset + endᵢ * bytes_per_value)`. -/
theorem claim_C4_uncompressed_intervals (s : ValuePageScheduler)
    (ranges : List (Nat × Nat))
    (h : s.compression_scheme = CompressionScheme.None) :
    s.byte_ranges ranges =
      ranges.map (fun range =>
        (s.buffer_offset + range.1 * s.bytes_per_value,
         s.buffer_offset + range.2 * s.bytes_per_value)) ∧
    (s.byte_ranges ranges).length = ranges.length := by
  constructor
  · simp [ValuePageScheduler.byte_ranges, h]
  · simp [ValuePageScheduler.byte_ranges, h]

/-- Witness for C4 at the spec's scenario: `bytes_per_value = 4`,
`buffer_offset = 100`, ranges `[2..5]` gives the byte range `[108, 120)`. -/
theorem claim_C4_witness :
    ValuePageScheduler.byte_ranges ⟨4, 100, 40, CompressionScheme.None⟩
      [(2, 5)] = [(108, 120)] ∧
    (ValuePageScheduler.byte_ranges ⟨4, 100, 40, CompressionScheme.None⟩
      [(2, 5)]).length = 1 :=
  claim_C4_uncompressed_intervals ⟨4, 100, 40, CompressionScheme.None⟩ [(2, 5)] rfl

/-- Claim C7: for every `schedule_ranges` call, the logical byte offsets
into the decompressed stream (`startᵢ * bytes_per_value .. endᵢ *
bytes_per_value`, in input order) are handed to the constructed decoder as
its logical-offset list whenever compression is active, and that list is
empty when the compression scheme is `None`. -/
theorem claim_C7_range_offsets (s : ValuePageScheduler)
    (ranges : List (Nat × Nat)) :
    (s.compression_scheme = CompressionScheme.None →
      s.range_offsets ranges = []) ∧
    (s.compression_scheme ≠ CompressionScheme.None →
      s.range_offsets ranges =
        ranges.map (fun range =>
          (range.1 * s.bytes_per_value, range.2 * s.bytes_per_value))) ∧
    (∀ fetched, (s.schedule_decoder ranges fetched).uncompressed_range_offsets =
      s.range_offsets ranges) := by
  refine ⟨?_, ?_, ?_⟩
  · intro h; simp [ValuePageScheduler.range_offsets, h]
  · intro h; simp [ValuePageScheduler.range_offsets, h]
  · intro fetched; rfl

/-- Witness for C7 on a zstd page and on a plain page. -/
theorem claim_C7_witness :
    ValuePageScheduler.range_offsets ⟨4, 100, 40, CompressionScheme.Zstd⟩
      [(2, 5)] = [(8, 20)] ∧
    ValuePageScheduler.range_offsets ⟨4, 100, 40, CompressionScheme.None⟩
      [(2, 5)] = [] ∧
    (ValuePageScheduler.schedule_decoder ⟨4, 100, 40, CompressionScheme.Zstd⟩
      [(2, 5)] [[0]]).uncompressed_range_offsets = [(8, 20)] := by
  refine ⟨?_, ?_, ?_⟩
  · exact (claim_C7_range_offsets ⟨4, 100, 40, CompressionScheme.Zstd⟩ [(2, 5)]).2.1
      (by decide)
  · exact (claim_C7_range_offsets ⟨4, 100, 40, CompressionScheme.None⟩ [(2, 5)]).1 rfl
  · exact ((claim_C7_range_offsets ⟨4, 100, 40, CompressionScheme.Zstd⟩
      [(2, 5)]).2.2 [[0]]).trans
      ((claim_C7_range_offsets ⟨4, 100, 40, CompressionScheme.Zstd⟩ [(2, 5)]).2.1
        (by decide))

/-- Claim C2: for every skip/take window and every fetched byte set with
enough bytes after the initial skip, `decode_into` appends the same byte
sequence whether the source bytes arrive split into chunks or
pre-concatenated into a single buffer. -/
theorem claim_C2_chunking_invariance (bpv rows_to_skip num_rows : Nat)
    (chunks : List (List Nat)) (dest : List Nat)
    (DEC : List Nat → Except String (List Nat))
    (h : rows_to_skip * bpv + num_rows * bpv ≤ chunks.flatten.length) :
    (ValuePageDecoder.decode_into ⟨bpv, chunks, Option.none, []⟩
        DEC rows_to_skip num_rows dest).1 =
    (ValuePageDecoder.decode_into ⟨bpv, [chunks.flatten], Option.none, []⟩
        DEC rows_to_skip num_rows dest).1 := by
  simp [ValuePageDecoder.decode_into, ValuePageDecoder.is_compressed,
    decode_buffers_eq_window]

/-- Witness for C2 at the spec's scenario shape: 12 bytes split `4 + 8`,
window `rows_to_skip = 0`, `num_rows = 3`, `bytes_per_value = 4`. -/
theorem claim_C2_witness :
    0 * 4 + 3 * 4 ≤
      ([[0, 1, 2, 3], [4, 5, 6, 7, 8, 9, 10, 11]] : List (List Nat)).flatten.length ∧
    (ValuePageDecoder.decode_into
        ⟨4, [[0, 1, 2, 3], [4, 5, 6, 7, 8, 9, 10, 11]], Option.none, []⟩
        (fun _ => Except.error "decompressor unused") 0 3 []).1 =
    (ValuePageDecoder.decode_into
        ⟨4, [([[0, 1, 2, 3], [4, 5, 6, 7, 8, 9, 10, 11]] :
              List (List Nat)).flatten], Option.none, []⟩
        (fun _ => Except.error "decompressor unused") 0 3 []).1 :=
  ⟨by decide,
   claim_C2_chunking_invariance 4 0 3 [[0, 1, 2, 3], [4, 5, 6, 7, 8, 9, 10, 11]]
     [] (fun _ => Except.error "decompressor unused") (by decide)⟩

/-- Claim C6: on a compressed page with an empty cache, a failing
decompression makes the triggering `decode_into` return that failure with
the cache still unpopulated (so the next call decompresses again); a
successful decompression populates the cache exactly once, and any later
call on the populated decoder reuses the cached sequence unchanged, for any
behaviour of the decompressor (so it never decompresses again). -/
theorem claim_C6_lazy_decompression (d : ValuePageDecoder)
    (DEC DEC2 : List Nat → Except String (List Nat))
    (rows_to_skip num_rows rows2 num2 : Nat) (dest dest2 : List Nat)
    (hcomp : d.is_compressed = true)
    (hcache : d.uncompressed_data = Option.none) :
    (∀ e, DEC (d.data.headD []) = Except.error e →
      d.decode_into DEC rows_to_skip num_rows dest = (Except.error e, d)) ∧
    (∀ u, DEC (d.data.headD []) = Except.ok u →
      d.decode_into DEC rows_to_skip num_rows dest =
        (Except.ok (decode_buffers (slice_ranges d.uncompressed_range_offsets u)
            (rows_to_skip * d.bytes_per_value) (num_rows * d.bytes_per_value) dest),
          { d with uncompressed_data :=
              Option.some (slice_ranges d.uncompressed_range_offsets u) })) ∧
    (∀ v : List (List Nat),
      ValuePageDecoder.decode_into { d with uncompressed_data := Option.some v }
          DEC2 rows2 num2 dest2 =
        (Except.ok (decode_buffers v (rows2 * d.bytes_per_value)
            (num2 * d.bytes_per_value) dest2),
          { d with uncompressed_data := Option.some v })) := by
  refine ⟨?_, ?_, ?_⟩
  · intro e he
    simp only [List.headD_eq_head?_getD] at he
    simp [ValuePageDecoder.decode_into, hcomp,
      ValuePageDecoder.get_uncompressed_bytes, hcache,
      ValuePageDecoder.decompress, he]
  · intro u hu
    simp only [List.headD_eq_head?_getD] at hu
    simp [ValuePageDecoder.decode_into, hcomp,
      ValuePageDecoder.get_uncompressed_bytes, hcache,
      ValuePageDecoder.decompress, hu]
  · intro v
    have hcomp2 : ({ d with uncompressed_data := Option.some v } :
        ValuePageDecoder).is_compressed = true := hcomp
    simp [ValuePageDecoder.decode_into, hcomp2,
      ValuePageDecoder.get_uncompressed_bytes]

/-- Witness for C6: a one-byte compressed page whose decompressor fails
leaves the cache empty; the same page with a working decompressor populates
the cache once and a second call (with a failing decompressor) still
succeeds from the cache. -/
theorem claim_C6_witness :
    ValuePageDecoder.decode_into ⟨1, [[7]], Option.none, [(0, 2)]⟩
        (fun _ => Except.error "corrupt block") 0 2 [] =
      (Except.error "corrupt block", ⟨1, [[7]], Option.none, [(0, 2)]⟩) ∧
    ValuePageDecoder.decode_into ⟨1, [[7]], Option.none, [(0, 2)]⟩
        (fun b => Except.ok (b ++ b)) 0 2 [] =
      (Except.ok [7, 7], ⟨1, [[7]], Option.some [[7, 7]], [(0, 2)]⟩) ∧
    ValuePageDecoder.decode_into ⟨1, [[7]], Option.some [[7, 7]], [(0, 2)]⟩
        (fun _ => Except.error "corrupt block") 0 2 [] =
      (Except.ok [7, 7], ⟨1, [[7]], Option.some [[7, 7]], [(0, 2)]⟩) := by
  refine ⟨?_, ?_, ?_⟩
  · exact (claim_C6_lazy_decompression ⟨1, [[7]], Option.none, [(0, 2)]⟩
      (fun _ => Except.error "corrupt block") (fun _ => Except.error "corrupt block")
      0 2 0 2 [] [] rfl rfl).1 "corrupt block" rfl
  · exact (claim_C6_lazy_decompression ⟨1, [[7]], Option.none, [(0, 2)]⟩
      (fun b => Except.ok (b ++ b)) (fun _ => Except.error "corrupt block")
      0 2 0 2 [] [] rfl rfl).2.1 [7, 7] rfl
  · exact (claim_C6_lazy_decompression ⟨1, [[7]], Option.none, [(0, 2)]⟩
      (fun b => Except.ok (b ++ b)) (fun _ => Except.error "corrupt block")
      0 2 0 2 [] [] rfl rfl).2.2 [[7, 7]]

/-- Claim C10: the decoder treats a page as compressed solely through its
logical-offset list, so scheduling a compressed-page scheduler with an
empty row-range list yields a decoder with an empty offset list that copies
directly from the fetched (still-compressed) page bytes and never invokes
the decompressor (its behaviour is independent of the decompressor). -/
theorem claim_C10_compressed_empty_ranges (s : ValuePageScheduler)
    (fetched : List (List Nat)) (DEC DEC2 : List Nat → Except String (List Nat))
    (rows_to_skip num_rows : Nat) (dest : List Nat)
    (h : s.compression_scheme ≠ CompressionScheme.None) :
    (s.schedule_decoder [] fetched).uncompressed_range_offsets = [] ∧
    (s.schedule_decoder [] fetched).is_compressed = false ∧
    ValuePageDecoder.decode_into (s.schedule_decoder [] fetched)
        DEC rows_to_skip num_rows dest =
      (Except.ok (decode_buffers fetched (rows_to_skip * s.bytes_per_value)
          (num_rows * s.bytes_per_value) dest),
       s.schedule_decoder [] fetched) ∧
    ValuePageDecoder.decode_into (s.schedule_decoder [] fetched)
        DEC rows_to_skip num_rows dest =
      ValuePageDecoder.decode_into (s.schedule_decoder [] fetched)
        DEC2 rows_to_skip num_rows dest := by
  have hoff : (s.schedule_decoder [] fetched).uncompressed_range_offsets = [] := by
    simp [ValuePageScheduler.schedule_decoder, ValuePageScheduler.range_offsets, h]
  have hcomp : (s.schedule_decoder [] fetched).is_compressed = false := by
    simp [ValuePageDecoder.is_compressed, hoff]
  refine ⟨hoff, hcomp, ?_, ?_⟩
  · rw [decode_into_uncompressed _ DEC _ _ _ hcomp]
    rfl
  · rw [decode_into_uncompressed _ DEC _ _ _ hcomp,
      decode_into_uncompressed _ DEC2 _ _ _ hcomp]

/-- Witness for C10 on a zstd page of geometry `(4, 100, 40)` with two
fetched chunks and window `(1, 2)`. -/
theorem claim_C10_witness :
    (ValuePageScheduler.schedule_decoder ⟨4, 100, 40, CompressionScheme.Zstd⟩
      [] [[0, 1, 2, 3], [4, 5, 6, 7, 8, 9, 10, 11]]).is_compressed = false ∧
    ValuePageDecoder.decode_into
        (ValuePageScheduler.schedule_decoder ⟨4, 100, 40, CompressionScheme.Zstd⟩
          [] [[0, 1, 2, 3], [4, 5, 6, 7, 8, 9, 10, 11]])
        (fun _ => Except.error "decompressor unused") 1 2 [] =
      (Except.ok (decode_buffers [[0, 1, 2, 3], [4, 5, 6, 7, 8, 9, 10, 11]]
          (1 * 4) (2 * 4) []),
       ValuePageScheduler.schedule_decoder ⟨4, 100, 40, CompressionScheme.Zstd⟩
         [] [[0, 1, 2, 3], [4, 5, 6, 7, 8, 9, 10, 11]]) :=
  ⟨(claim_C10_compressed_empty_ranges ⟨4, 100, 40, CompressionScheme.Zstd⟩
      [[0, 1, 2, 3], [4, 5, 6, 7, 8, 9, 10, 11]]
      (fun _ => Except.error "decompressor unused")
      (fun _ => Except.error "decompressor unused") 1 2 [] (by decide)).2.1,
   (claim_C10_compressed_empty_ranges ⟨4, 100, 40, CompressionScheme.Zstd⟩
      [[0, 1, 2, 3], [4, 5, 6, 7, 8, 9, 10, 11]]
      (fun _ => Except.error "decompressor unused")
      (fun _ => Except.error "decompressor unused") 1 2 [] (by decide)).2.2.1⟩

/-- Claim C1: for a non-empty batch of arrays of a non-boolean fixed-stride
type (native width `8 * w` bits), encoding selects `Bitpacked` exactly when
every array's bit width is computable and the maximum width over the batch
is strictly below the native width, emitting
`Bitpacked{compressed_bits_per_value = max width, uncompressed_bits_per_value
= native}`; in every other case it falls back to `Flat` metadata with
`bits_per_value` = native width.  The external bit-packing and flat buffer
encoders are assumed to succeed with `bitpack_buf` / `flat_buf`. -/
theorem claim_C1_bitpack_selection (w : Nat) (scheme : CompressionScheme)
    (enc : ValueEncoder) (arrays : List ArrayM)
    (bitpack_buf flat_buf : EncodedBuffer) (buffer_index : Nat)
    (henc : ValueEncoder.try_new (DataType.FixedStride w) scheme = Except.ok enc)
    (hne : arrays ≠ [])
    (hdt : (arrays.headD default).data_type = DataType.FixedStride w) :
    ((batch_num_bits arrays 0).isSome ↔
      ∀ a ∈ arrays, a.num_compressed_bits.isSome) ∧
    (∀ nb, batch_num_bits arrays 0 = Option.some nb →
      nb = (arrays.map (fun a => a.num_compressed_bits.getD 0)).foldl max 0) ∧
    (∀ nb, batch_num_bits arrays 0 = Option.some nb → nb < 8 * w →
      (enc.encode arrays (Except.ok bitpack_buf) (Except.ok flat_buf)
          buffer_index).1 =
        Except.ok
          { buffers := [{ parts := bitpack_buf.parts, index := buffer_index }]
            encoding := ArrayEncoding.Bitpacked nb (8 * w) buffer_index }) ∧
    (∀ nb, batch_num_bits arrays 0 = Option.some nb → 8 * w ≤ nb →
      (enc.encode arrays (Except.ok bitpack_buf) (Except.ok flat_buf)
          buffer_index).1 =
        Except.ok
          { buffers := [{ parts := flat_buf.parts, index := buffer_index }]
            encoding := ArrayEncoding.Flat (8 * w) buffer_index
              (if scheme ≠ CompressionScheme.None then
                Option.some scheme.toString
              else
                Option.none) }) ∧
    (batch_num_bits arrays 0 = Option.none →
      (enc.encode arrays (Except.ok bitpack_buf) (Except.ok flat_buf)
          buffer_index).1 =
        Except.ok
          { buffers := [{ parts := flat_buf.parts, index := buffer_index }]
            encoding := ArrayEncoding.Flat (8 * w) buffer_index
              (if scheme ≠ CompressionScheme.None then
                Option.some scheme.toString
              else
                Option.none) }) := by
  have henc2 : enc =
      { compression_scheme := scheme
        flat_buffer_encoder :=
          if scheme = CompressionScheme.None then BufferEncoderKind.Flat
          else BufferEncoderKind.Compressed
        has_bitpack_encoder := true } := by
    simp [ValueEncoder.try_new, DataType.is_fixed_stride] at henc
    exact henc.symm
  subst henc2
  simp only [List.headD_eq_head?_getD] at hdt
  refine ⟨batch_num_bits_isSome arrays 0, batch_num_bits_eq_foldl arrays 0,
    ?_, ?_, ?_⟩
  · intro nb hnb hlt
    have hno : ¬ (8 * w ≤ nb) := Nat.not_le.mpr hlt
    simp [ValueEncoder.encode, ValueEncoder.try_bitpack_encode, hnb, hdt,
      DataType.byte_width, ge_iff_le, hno]
  · intro nb hnb hge
    simp [ValueEncoder.encode, ValueEncoder.try_bitpack_encode, hnb, hdt,
      DataType.byte_width, ge_iff_le, hge]
  · intro hnone
    simp [ValueEncoder.encode, ValueEncoder.try_bitpack_encode, hnone, hdt,
      DataType.byte_width]

/-- Witness for C1 at the spec's scenarios: a `UInt8`-like batch of maximum
width 3 is bit-packed as `Bitpacked{3, 8}`; a batch of maximum width 8 falls
back to `Flat{8}`. -/
theorem claim_C1_witness :
    (ValueEncoder.encode
        { compression_scheme := CompressionScheme.None
          flat_buffer_encoder := BufferEncoderKind.Flat
          has_bitpack_encoder := true }
        [{ data_type := DataType.FixedStride 1, num_compressed_bits := Option.some 3 }]
        (Except.ok { parts := [[9]] }) (Except.ok { parts := [[1]] }) 0).1 =
      Except.ok
        { buffers := [{ parts := [[9]], index := 0 }]
          encoding := ArrayEncoding.Bitpacked 3 8 0 } ∧
    (ValueEncoder.encode
        { compression_scheme := CompressionScheme.None
          flat_buffer_encoder := BufferEncoderKind.Flat
          has_bitpack_encoder := true }
        [{ data_type := DataType.FixedStride 1, num_compressed_bits := Option.some 8 }]
        (Except.ok { parts := [[9]] }) (Except.ok { parts := [[1]] }) 0).1 =
      Except.ok
        { buffers := [{ parts := [[1]], index := 0 }]
          encoding := ArrayEncoding.Flat 8 0 Option.none } := by
  constructor
  · exact (claim_C1_bitpack_selection 1 CompressionScheme.None _
      [{ data_type := DataType.FixedStride 1, num_compressed_bits := Option.some 3 }]
      { parts := [[9]] } { parts := [[1]] } 0 rfl (by simp) rfl).2.2.1 3 rfl
      (by decide)
  · have h := (claim_C1_bitpack_selection 1 CompressionScheme.None _
      [{ data_type := DataType.FixedStride 1, num_compressed_bits := Option.some 8 }]
      { parts := [[9]] } { parts := [[1]] } 0 rfl (by simp) rfl).2.2.2.1 8 rfl
      (by decide)
    simpa using h

/-- Claim C5, counterexample: a boolean encoder constructed with the `Zstd`
scheme emits `Flat{bits_per_value = 1}` metadata that DOES carry a
compression record naming `"zstd"`, contradicting the claim that no
compression metadata is ever attached for booleans. -/
theorem claim_C5_counterexample :
    ValueEncoder.try_new DataType.Boolean CompressionScheme.Zstd =
      Except.ok
        { compression_scheme := CompressionScheme.Zstd
          flat_buffer_encoder := BufferEncoderKind.Bitmap
          has_bitpack_encoder := false } ∧
    (ValueEncoder.encode
        { compression_scheme := CompressionScheme.Zstd
          flat_buffer_encoder := BufferEncoderKind.Bitmap
          has_bitpack_encoder := false }
        [{ data_type := DataType.Boolean, num_compressed_bits := Option.none }]
        (Except.ok { parts := [] }) (Except.ok { parts := [[1]] }) 0).1 =
      Except.ok
        { buffers := [{ parts := [[1]], index := 0 }]
          encoding := ArrayEncoding.Flat 1 0 (Option.some "zstd") } :=
  ⟨rfl, rfl⟩

/-- Claim C5 as amended: for every batch of boolean arrays, `encode` always
emits the 1-bit-per-value representation (`Flat` metadata with
`bits_per_value = 1`), never `Bitpacked`, and the bitmap buffer encoder is
selected whatever the compression scheme (so no block compression is
applied to the boolean bytes, and the bit-packer is never consulted) — but
compression metadata naming the scheme IS attached whenever the encoder was
constructed with a non-`None` scheme. -/
theorem claim_C5_boolean_flat (scheme : CompressionScheme) (enc : ValueEncoder)
    (arrays : List ArrayM) (flat_buf : EncodedBuffer) (buffer_index : Nat)
    (henc : ValueEncoder.try_new DataType.Boolean scheme = Except.ok enc)
    (hne : arrays ≠ [])
    (hdt : (arrays.headD default).data_type = DataType.Boolean) :
    enc.flat_buffer_encoder = BufferEncoderKind.Bitmap ∧
    enc.has_bitpack_encoder = false ∧
    (∀ bitpack_result : Except String EncodedBuffer,
      (enc.encode arrays bitpack_result (Except.ok flat_buf) buffer_index).1 =
        Except.ok
          { buffers := [{ parts := flat_buf.parts, index := buffer_index }]
            encoding := ArrayEncoding.Flat 1 buffer_index
              (if scheme ≠ CompressionScheme.None then
                Option.some scheme.toString
              else
                Option.none) }) := by
  have henc2 : enc =
      { compression_scheme := scheme
        flat_buffer_encoder := BufferEncoderKind.Bitmap
        has_bitpack_encoder := false } := by
    simp [ValueEncoder.try_new] at henc
    exact henc.symm
  subst henc2
  simp only [List.headD_eq_head?_getD] at hdt
  refine ⟨rfl, rfl, ?_⟩
  intro bitpack_result
  simp [ValueEncoder.encode, ValueEncoder.try_bitpack_encode, hdt]

/-- Witness for C5's amended claim: a boolean batch under the `None` scheme
yields `Flat{1}` with no compression record. -/
theorem claim_C5_witness :
    (ValueEncoder.encode
        { compression_scheme := CompressionScheme.None
          flat_buffer_encoder := BufferEncoderKind.Bitmap
          has_bitpack_encoder := false }
        [{ data_type := DataType.Boolean, num_compressed_bits := Option.none }]
        (Except.error "bit packer unused") (Except.ok { parts := [[1]] }) 0).1 =
      Except.ok
        { buffers := [{ parts := [[1]], index := 0 }]
          encoding := ArrayEncoding.Flat 1 0 Option.none } := by
  have h := (claim_C5_boolean_flat CompressionScheme.None _
    [{ data_type := DataType.Boolean, num_compressed_bits := Option.none }]
    { parts := [[1]] } 0 rfl (by simp) rfl).2.2 (Except.error "bit packer unused")
  simpa using h

/-- Claim C9: every `encode` call advances the caller's `buffer_index`
counter by exactly one, before any encoding work — so the counter is
advanced even when `encode` returns an error from the bit-width analysis,
the bit-packer, or the buffer encoder — and on success the single output
buffer is tagged with the pre-increment counter value. -/
theorem claim_C9_buffer_index (enc : ValueEncoder) (arrays : List ArrayM)
    (bitpack_result flat_result : Except String EncodedBuffer)
    (buffer_index : Nat) :
    (enc.encode arrays bitpack_result flat_result buffer_index).2 =
      buffer_index + 1 ∧
    (∀ ea, (enc.encode arrays bitpack_result flat_result buffer_index).1 =
        Except.ok ea →
      ea.buffers.length = 1 ∧ ∀ b ∈ ea.buffers, b.index = buffer_index) := by
  cases htb : enc.try_bitpack_encode arrays bitpack_result buffer_index with
  | error e =>
    refine ⟨by simp [ValueEncoder.encode, htb], ?_⟩
    intro ea hea
    simp [ValueEncoder.encode, htb] at hea
  | ok o =>
    cases o with
    | some p =>
      obtain ⟨ae, eb⟩ := p
      refine ⟨by simp [ValueEncoder.encode, htb], ?_⟩
      intro ea hea
      simp [ValueEncoder.encode, htb] at hea
      subst hea
      simp
    | none =>
      cases flat_result with
      | error e =>
        refine ⟨by simp [ValueEncoder.encode, htb], ?_⟩
        intro ea hea
        simp [ValueEncoder.encode, htb] at hea
      | ok fb =>
        refine ⟨by simp [ValueEncoder.encode, htb], ?_⟩
        intro ea hea
        simp [ValueEncoder.encode, htb] at hea
        subst hea
        simp

/-- Witness for C9: a successful encode tags its single buffer with the
pre-increment counter 5 and returns 6; an encode whose bit-packer fails
still returns counter 6. -/
theorem claim_C9_witness :
    (ValueEncoder.encode
        { compression_scheme := CompressionScheme.None
          flat_buffer_encoder := BufferEncoderKind.Flat
          has_bitpack_encoder := true }
        [{ data_type := DataType.FixedStride 1, num_compressed_bits := Option.some 3 }]
        (Except.ok { parts := [[9]] }) (Except.ok { parts := [[1]] }) 5).2 = 6 ∧
    (∀ b ∈ ({ buffers := [{ parts := [[9]], index := 5 }]
              encoding := ArrayEncoding.Bitpacked 3 8 5 } : EncodedArray).buffers,
      b.index = 5) ∧
    (ValueEncoder.encode
        { compression_scheme := CompressionScheme.None
          flat_buffer_encoder := BufferEncoderKind.Flat
          has_bitpack_encoder := true }
        [{ data_type := DataType.FixedStride 1, num_compressed_bits := Option.some 3 }]
        (Except.error "bit packing failed") (Except.ok { parts := [[1]] }) 5).2 = 6 :=
  ⟨(claim_C9_buffer_index
      { compression_scheme := CompressionScheme.None
        flat_buffer_encoder := BufferEncoderKind.Flat
        has_bitpack_encoder := true }
      [{ data_type := DataType.FixedStride 1, num_compressed_bits := Option.some 3 }]
      (Except.ok { parts := [[9]] }) (Except.ok { parts := [[1]] }) 5).1,
   ((claim_C9_buffer_index
      { compression_scheme := CompressionScheme.None
        flat_buffer_encoder := BufferEncoderKind.Flat
        has_bitpack_encoder := true }
      [{ data_type := DataType.FixedStride 1, num_compressed_bits := Option.some 3 }]
      (Except.ok { parts := [[9]] }) (Except.ok { parts := [[1]] }) 5).2
      { buffers := [{ parts := [[9]], index := 5 }]
        encoding := ArrayEncoding.Bitpacked 3 8 5 } rfl).2,
   (claim_C9_buffer_index
      { compression_scheme := CompressionScheme.None
        flat_buffer_encoder := BufferEncoderKind.Flat
        has_bitpack_encoder := true }
      [{ data_type := DataType.FixedStride 1, num_compressed_bits := Option.some 3 }]
      (Except.error "bit packing failed") (Except.ok { parts := [[1]] }) 5).1⟩
